import Mathlib

/-!
Verification development for the heartbeat supervisor test repository.

The repository has two Python components:
* `client.py` — a baseline heartbeat writer: parse an optional path argument,
  then loop forever writing `str(time.time())` to the heartbeat file, catching
  `IOError` and sleeping 5 seconds per iteration.
* `test_client.py` — a scenario harness: pop a non-digit trailing argument as
  the heartbeat path, clean up a pre-existing heartbeat file, register a
  SIGTERM handler, then dispatch on a scenario name (`normal`,
  `crash_periodic`, `hang`, `sigterm_test`, `long_request`).

The definitions below are a shallow embedding of that code: time is modelled
as rational seconds accumulated by `sleep` calls, randomness as explicit draw
lists, and the file system as the optional content of the heartbeat file.
-/

namespace Supervisor

/-! ## Heartbeat file content: `str(time.time())` and parsing it back

`time.time()` is a non-negative float; for epoch-scale values `str` renders it
as `<integer digits>.<fraction digits>` with at least one digit on each side.
A timestamp is modelled as its integer part together with its list of
fraction digits. -/

/-- The character for a decimal digit value, as Python prints it. -/
def digitChar (d : Nat) : Char := Char.ofNat (48 + d)

/-- Decode one character as a decimal digit value, if it is one. -/
def charDigitVal (c : Char) : Option Nat :=
  if 48 ≤ c.toNat ∧ c.toNat ≤ 57 then some (c.toNat - 48) else none

/-- Value of a big-endian digit list, as Python `int` reads digit strings. -/
def digitsVal (ds : List Nat) : Nat := ds.foldl (fun a d => 10 * a + d) 0

/-- Big-endian decimal digits of a natural number, as Python prints it
(`0` prints as the single digit `0`). -/
def natDigits (n : Nat) : List Nat :=
  if n = 0 then [0] else (Nat.digits 10 n).reverse

/-- The exact character sequence `str(time.time())` writes for a timestamp
with integer part `i` and fraction digits `f`. -/
def floatStr (i : Nat) (f : List Nat) : List Char :=
  (natDigits i).map digitChar ++ '.' :: f.map digitChar

/-- Decode a character list as decimal digit values; fails on a non-digit. -/
def parseDigitList : List Char → Option (List Nat)
  | [] => some []
  | c :: cs =>
    match charDigitVal c, parseDigitList cs with
    | some d, some ds => some (d :: ds)
    | _, _ => none

/-- Split a character list at its first dot. -/
def splitAtDot : List Char → Option (List Char × List Char)
  | [] => none
  | c :: cs =>
    if c = '.' then some ([], cs)
    else
      match splitAtDot cs with
      | some (a, b) => some (c :: a, b)
      | none => none

/-- Parse heartbeat-file content back into a timestamp: integer part and
fraction digits, both required to be non-empty digit runs around one dot. -/
def parseHeartbeat (cs : List Char) : Option (Nat × List Nat) :=
  match splitAtDot cs with
  | none => none
  | some (ip, fp) =>
    match parseDigitList ip, parseDigitList fp with
    | some ids, some fds =>
      if ids.isEmpty ∨ fds.isEmpty then none else some (digitsVal ids, fds)
    | _, _ => none

/-- State of the heartbeat file: `none` when the file does not exist. -/
structure FS where
  content : Option (List Char)
deriving DecidableEq

/-- Function `write_heartbeat` of `test_client.py` (and the write in the loop of `client.py`): `open(HEARTBEAT_FILE, "w")` truncates, then the full float string is
written, replacing any previous content. -/
def write_heartbeat (fs : FS) (i : Nat) (f : List Nat) : FS :=
  ⟨some (floatStr i f)⟩

/-! ## Command-line parsing of the scenario harness (`test_client.py main`)

Here `argv` models the full Python `sys.argv`, program name included. -/

/-- Python `str.isdigit`: true iff the string is non-empty and every
character is a decimal digit. -/
def pyIsdigit (s : String) : Bool :=
  !s.isEmpty && s.toList.all fun c => (charDigitVal c).isSome

/-- Python `int` on a string that satisfies `isdigit`. -/
def pyInt (s : String) : Nat :=
  digitsVal (s.toList.map fun c => c.toNat - 48)

/-- The configuration `test_client.py main` resolves before dispatch. -/
structure Config where
  heartbeatFile : String
  popped : Bool
  scenario : String
  duration : Nat
deriving DecidableEq

/-- The pop condition of `test_client.py main`:
`len(sys.argv) > 1 and not sys.argv[-1].isdigit()`. -/
def popsPath (argv : List String) : Bool :=
  decide (1 < argv.length) && !pyIsdigit (argv.getLastD "")

/-- Python `sys.argv` after the optional `sys.argv.pop(-1)` of the
heartbeat path. -/
def argvAfterPop (argv : List String) : List String :=
  if popsPath argv then argv.dropLast else argv

/-- Argument resolution of `test_client.py main`: if there is more than one
argument and the last is not a digit string, it is consumed as the heartbeat
path (`sys.argv.pop(-1)`); then the scenario is `sys.argv[1]` of what
remains (default `normal`) and the duration is `sys.argv[2]` when present
and numeric (default 30). -/
def resolveConfig (argv : List String) : Config :=
  ⟨if popsPath argv then argv.getLastD "" else "heartbeat.txt",
   popsPath argv,
   if 1 < (argvAfterPop argv).length then (argvAfterPop argv).getD 1 ""
   else "normal",
   if 2 < (argvAfterPop argv).length ∧ pyIsdigit ((argvAfterPop argv).getD 2 "")
   then pyInt ((argvAfterPop argv).getD 2 "") else 30⟩

/-! ## Events emitted by a run

Time is rational seconds since scenario start; it advances only at `sleep`
events, so the time stamp of a beat is the sum of the sleeps before it. -/

/-- One observable step of either component. -/
inductive Event
  | logi (m : String)
  | loge (m : String)
  | logw (m : String)
  | beat (t : ℚ)
  | sleep (d : ℚ)
  | crashCheck (c : ℚ)
  | removeFile
  | exited (code : Nat)
deriving DecidableEq

/-- Number of heartbeat writes in a trace. -/
def countBeats : List Event → Nat
  | [] => 0
  | .beat _ :: rest => countBeats rest + 1
  | _ :: rest => countBeats rest

/-- Number of heartbeat-file deletions in a trace. -/
def countRemoves : List Event → Nat
  | [] => 0
  | .removeFile :: rest => countRemoves rest + 1
  | _ :: rest => countRemoves rest

/-- Number of 20% crash checks in a trace. -/
def countChecks : List Event → Nat
  | [] => 0
  | .crashCheck _ :: rest => countChecks rest + 1
  | _ :: rest => countChecks rest

/-- Number of process-exit events in a trace. -/
def countExits : List Event → Nat
  | [] => 0
  | .exited _ :: rest => countExits rest + 1
  | _ :: rest => countExits rest

/-- The time stamps of the heartbeat writes in a trace, in order. -/
def beatTimes : List Event → List ℚ
  | [] => []
  | .beat t :: rest => t :: beatTimes rest
  | _ :: rest => beatTimes rest

/-- Total seconds slept along a trace. -/
def sleepSum : List Event → ℚ
  | [] => 0
  | .sleep d :: rest => d + sleepSum rest
  | _ :: rest => sleepSum rest

/-- Scanner checking that every crash check immediately follows a sleep;
the flag records whether the previous event was a sleep. -/
def checksFollowSleep : Bool → List Event → Bool
  | _, [] => true
  | prevSleep, e :: rest =>
    (match e with
     | .crashCheck _ => prevSleep
     | _ => true) &&
    checksFollowSleep
      (match e with
       | .sleep _ => true
       | _ => false) rest

/-- Scanner checking that no deletion occurs once a beat has happened;
the flag records whether a beat has been seen. -/
def noRemoveAfterBeat : Bool → List Event → Bool
  | _, [] => true
  | seenBeat, e :: rest =>
    (match e with
     | .removeFile => !seenBeat
     | _ => true) &&
    noRemoveAfterBeat
      (seenBeat ||
       match e with
       | .beat _ => true
       | _ => false) rest

/-! ## Scenario runs

Each generator returns the event trace of one scenario block of
`test_client.py main`, paired (where the scenario can exit) with the exit
code, `none` meaning the supplied random draws ran out before the loop
finished. A draw is a pair: the `random.uniform(3, 7)` sleep length and the
`random.random()` crash sample (unused outside `crash_periodic`). -/

/-- Scenario normal: while elapsed < duration, beat then sleep a drawn length;
afterwards log and exit 0. -/
def normalRun (duration elapsed : ℚ) : List ℚ → List Event × Option Nat
  | [] =>
    if duration ≤ elapsed then ([.logi "Exiting normally", .exited 0], some 0)
    else ([], none)
  | s :: rest =>
    if duration ≤ elapsed then ([.logi "Exiting normally", .exited 0], some 0)
    else
      let t := normalRun duration (elapsed + s) rest
      (.beat elapsed :: .sleep s :: t.1, t.2)

/-- Scenario crash_periodic: while elapsed < duration, beat, sleep a drawn length,
then check the crash sample once; a sample below 1/5 exits 1, otherwise the
loop continues; when the guard fails the run exits 0. -/
def crashRun (duration elapsed : ℚ) : List (ℚ × ℚ) → List Event × Option Nat
  | [] =>
    if duration ≤ elapsed then
      ([.logi "Exiting normally after periodic crashes", .exited 0], some 0)
    else ([], none)
  | (s, c) :: rest =>
    if duration ≤ elapsed then
      ([.logi "Exiting normally after periodic crashes", .exited 0], some 0)
    else
      let t :=
        if c < mkRat 1 5 then ([.loge "Simulating a random crash", .exited 1], some 1)
        else crashRun duration (elapsed + s) rest
      (.beat elapsed :: .sleep s :: .crashCheck c :: t.1, t.2)

/-- The `for i in range(n)` beat phase of `hang`: beat then sleep 5. -/
def hangBeatLoop : Nat → ℚ → List Event
  | 0, _ => []
  | n + 1, t => .beat t :: .sleep 5 :: hangBeatLoop n (t + 5)

/-- The infinite `while True: time.sleep(1)` tail of `hang`, observed for
`fuel` iterations. -/
def hangSpin (fuel : Nat) : List Event := List.replicate fuel (.sleep 1)

/-- Scenario hang: two beat cycles, a warning, then the beat-free spin loop. -/
def hangRun (fuel : Nat) : List Event :=
  hangBeatLoop 2 0 ++ .logw "Stopping heartbeat and entering infinite loop" :: hangSpin fuel

/-- Scenario sigterm_test: `while True: write_heartbeat(); time.sleep(5)`, observed
for `fuel` iterations. -/
def sigtermRun (elapsed : ℚ) : Nat → List Event
  | 0 => []
  | n + 1 => .beat elapsed :: .sleep 5 :: sigtermRun (elapsed + 5) n

/-- Scenario long_request: beat, sleep the whole duration with no heartbeat, beat
again, exit 0. -/
def longRequestRun (duration : ℚ) : List Event :=
  [.logi "Simulating a long request", .beat 0, .logi "Starting long operation",
   .sleep duration, .beat duration, .logi "Long operation finished", .exited 0]

/-- The scenario dispatch chain of `test_client.py main`: five recognized
names, otherwise log an error and exit 1. -/
def scenarioTrace (scenario : String) (duration : ℚ) (draws : List (ℚ × ℚ))
    (fuel : Nat) : List Event :=
  if scenario = "normal" then
    .logi "Normal operation" :: (normalRun duration 0 (draws.map Prod.fst)).1
  else if scenario = "crash_periodic" then
    .logi "Simulating periodic crashes" :: (crashRun duration 0 draws).1
  else if scenario = "hang" then
    .logi "Simulating a hang" :: hangRun fuel
  else if scenario = "sigterm_test" then
    .logi "Waiting for SIGTERM" :: sigtermRun 0 fuel
  else if scenario = "long_request" then
    longRequestRun duration
  else [.loge "Unknown scenario", .exited 1]

/-- Startup block of `test_client.py main`: log which heartbeat path is in
use, then remove a pre-existing heartbeat file. -/
def startupEvents (popped fileExists : Bool) : List Event :=
  (if popped then [Event.logi "Using custom heartbeat file"]
   else [Event.logi "Using default heartbeat file"]) ++
  (if fileExists then [Event.removeFile, Event.logi "Cleaned up old heartbeat file"]
   else [])

/-- Full trace of one `test_client.py main` run: argument resolution,
startup cleanup, then the dispatched scenario. -/
def mainTrace (argv : List String) (fileExists : Bool) (draws : List (ℚ × ℚ))
    (fuel : Nat) : List Event :=
  let cfg := resolveConfig argv
  startupEvents cfg.popped fileExists ++
    scenarioTrace cfg.scenario (cfg.duration : ℚ) draws fuel

/-! ## Signal handling -/

/-- The SIGTERM signal number. -/
def SIGTERM : Nat := 15

/-- Function `signal_handler` of `test_client.py`: log the event and `sys.exit(0)`;
no heartbeat write, no file operation. -/
def signal_handler (signum : Nat) : List Event :=
  [.logi "Received signal, exiting gracefully", .exited 0]

/-- The handler table `test_client.py main` installs before dispatching any
scenario: `signal.signal(signal.SIGTERM, signal_handler)`, unconditionally. -/
def mainSignalTable (argv : List String) : Nat → Option (Nat → List Event) :=
  fun s => if s = SIGTERM then some signal_handler else none

/-- Delivering a signal after `k` events of a scenario trace: the main flow
is cut off and the events of the installed handler run instead. -/
def deliverSignal (argv : List String) (tr : List Event) (k : Nat) (s : Nat) :
    List Event :=
  match mainSignalTable argv s with
  | some h => tr.take k ++ h s
  | none => tr

/-! ## The baseline writer (`client.py`) -/

/-- Python exception classes that matter to the loop in `client.py`. -/
inductive PyErr
  | ioError
  | nameError
deriving DecidableEq

/-- The global namespace of `client.py` during `main`, as bindings of
variable names to values: only `HEARTBEAT_FILE` holds a string value. -/
def clientGlobalEnv (hbFile : String) : List (String × String) :=
  [("HEARTBEAT_FILE", hbFile)]

/-- Python name lookup: an unbound name raises `NameError`. -/
def lookupName (env : List (String × String)) (n : String) :
    Except PyErr String :=
  match env with
  | [] => Except.error PyErr.nameError
  | (k, v) :: rest => if n = k then Except.ok v else lookupName rest n

/-- Python `open(path, "w")` followed by a full write: replaces the file content,
or raises `IOError` when the path is not writable. -/
def pyOpenWrite (writable : String → Bool) (path : String)
    (content : List Char) : Except PyErr FS :=
  if writable path then Except.ok ⟨some content⟩ else Except.error PyErr.ioError

/-- The `try` block of the loop in `client.py`, verbatim: look up the (misspelled)
name `HEARTBEBEAT_FILE`, then open and write the timestamp. -/
def clientTryBlock (writable : String → Bool) (hbFile : String)
    (i : Nat) (f : List Nat) : Except PyErr FS :=
  match lookupName (clientGlobalEnv hbFile) "HEARTBEBEAT_FILE" with
  | Except.error e => Except.error e
  | Except.ok path => pyOpenWrite writable path (floatStr i f)

/-- One iteration of the `while True` loop in `client.py`: run the `try` block;
`except IOError` logs and lets the loop continue; any other exception
propagates and terminates the process. -/
def clientLoopIter (writable : String → Bool) (hbFile : String) (fs : FS)
    (i : Nat) (f : List Nat) : Except PyErr (FS × List Event) :=
  match clientTryBlock writable hbFile i f with
  | Except.ok fs1 => Except.ok (fs1, [.logi "Heartbeat sent", .sleep 5])
  | Except.error PyErr.ioError =>
    Except.ok (fs, [.loge "Error writing to heartbeat file", .sleep 5])
  | Except.error e => Except.error e

/-! ## Serialization lemmas -/

lemma charDigitVal_digitChar {d : Nat} (hd : d < 10) :
    charDigitVal (digitChar d) = some d := by
  interval_cases d <;> decide

lemma digitChar_ne_dot {d : Nat} (hd : d < 10) : digitChar d ≠ '.' := by
  interval_cases d <;> decide

lemma parseDigitList_map_digitChar {ds : List Nat} (h : ∀ d ∈ ds, d < 10) :
    parseDigitList (ds.map digitChar) = some ds := by
  induction ds with
  | nil => rfl
  | cons d t ih =>
    have hd : d < 10 := h d (List.mem_cons_self d t)
    have ht : ∀ x ∈ t, x < 10 := fun x hx => h x (List.mem_cons_of_mem d hx)
    simp [parseDigitList, charDigitVal_digitChar hd, ih ht]

lemma splitAtDot_append {a b : List Char} (h : ∀ c ∈ a, c ≠ '.') :
    splitAtDot (a ++ '.' :: b) = some (a, b) := by
  induction a with
  | nil => simp [splitAtDot]
  | cons c t ih =>
    have hc : c ≠ '.' := h c (List.mem_cons_self c t)
    have ht : ∀ x ∈ t, x ≠ '.' := fun x hx => h x (List.mem_cons_of_mem c hx)
    simp [splitAtDot, hc, ih ht]

lemma digitsVal_reverse (l : List Nat) :
    digitsVal l.reverse = Nat.ofDigits 10 l := by
  induction l with
  | nil => simp [digitsVal, Nat.ofDigits_nil]
  | cons d t ih =>
    have : digitsVal (t.reverse ++ [d]) = 10 * digitsVal t.reverse + d := by
      unfold digitsVal
      rw [List.foldl_append]
      rfl
    simp only [List.reverse_cons, this, ih, Nat.ofDigits_cons]
    ring

lemma digitsVal_natDigits (n : Nat) : digitsVal (natDigits n) = n := by
  by_cases hn : n = 0
  · subst hn; rfl
  · unfold natDigits
    rw [if_neg hn, digitsVal_reverse, Nat.ofDigits_digits]

lemma natDigits_mem_lt {n d : Nat} (hd : d ∈ natDigits n) : d < 10 := by
  unfold natDigits at hd
  by_cases hn : n = 0
  · rw [if_pos hn] at hd
    simp at hd
    omega
  · rw [if_neg hn, List.mem_reverse] at hd
    exact Nat.digits_lt_base (by omega) hd

lemma natDigits_ne_nil (n : Nat) : natDigits n ≠ [] := by
  unfold natDigits
  by_cases hn : n = 0
  · rw [if_pos hn]; simp
  · rw [if_neg hn]
    simpa using Nat.digits_ne_nil_iff_ne_zero.mpr hn

lemma parseHeartbeat_floatStr {i : Nat} {f : List Nat}
    (hf : ∀ d ∈ f, d < 10) (hne : f ≠ []) :
    parseHeartbeat (floatStr i f) = some (i, f) := by
  have hsplit : splitAtDot ((natDigits i).map digitChar ++ '.' :: f.map digitChar)
      = some ((natDigits i).map digitChar, f.map digitChar) := by
    apply splitAtDot_append
    intro c hc
    rcases List.mem_map.mp hc with ⟨d, hd, rfl⟩
    exact digitChar_ne_dot (natDigits_mem_lt hd)
  have hip : parseDigitList ((natDigits i).map digitChar) = some (natDigits i) :=
    parseDigitList_map_digitChar (fun d hd => natDigits_mem_lt hd)
  have hfp : parseDigitList (f.map digitChar) = some f :=
    parseDigitList_map_digitChar hf
  unfold parseHeartbeat floatStr
  rw [hsplit]
  simp only [hip, hfp]
  rw [if_neg]
  · rw [digitsVal_natDigits]
  · simp [List.isEmpty_iff, natDigits_ne_nil i, hne]

/-! ## Trace bookkeeping lemmas -/

lemma countBeats_append (l r : List Event) :
    countBeats (l ++ r) = countBeats l + countBeats r := by
  induction l with
  | nil => simp [countBeats]
  | cons e t ih => cases e <;> simp [countBeats, ih] <;> omega

lemma countRemoves_append (l r : List Event) :
    countRemoves (l ++ r) = countRemoves l + countRemoves r := by
  induction l with
  | nil => simp [countRemoves]
  | cons e t ih => cases e <;> simp [countRemoves, ih] <;> omega

lemma countExits_append (l r : List Event) :
    countExits (l ++ r) = countExits l + countExits r := by
  induction l with
  | nil => simp [countExits]
  | cons e t ih => cases e <;> simp [countExits, ih] <;> omega

lemma beatTimes_append (l r : List Event) :
    beatTimes (l ++ r) = beatTimes l ++ beatTimes r := by
  induction l with
  | nil => simp [beatTimes]
  | cons e t ih => cases e <;> simp [beatTimes, ih]

lemma noRemoveAfterBeat_of_no_removes (l : List Event) (b : Bool)
    (h : countRemoves l = 0) : noRemoveAfterBeat b l = true := by
  induction l generalizing b with
  | nil => rfl
  | cons e t ih =>
    cases e <;> simp [countRemoves] at h <;>
      simp [noRemoveAfterBeat, ih _ h]

/-! ## Facts about the scenario generators -/

lemma hangSpin_countBeats (n : Nat) : countBeats (hangSpin n) = 0 := by
  induction n with
  | zero => rfl
  | succ k ih => simpa [hangSpin, List.replicate_succ, countBeats] using ih

lemma hangSpin_beatTimes (n : Nat) : beatTimes (hangSpin n) = [] := by
  induction n with
  | zero => rfl
  | succ k ih => simpa [hangSpin, List.replicate_succ, beatTimes] using ih

lemma hangSpin_countExits (n : Nat) : countExits (hangSpin n) = 0 := by
  induction n with
  | zero => rfl
  | succ k ih => simpa [hangSpin, List.replicate_succ, countExits] using ih

lemma hangSpin_countRemoves (n : Nat) : countRemoves (hangSpin n) = 0 := by
  induction n with
  | zero => rfl
  | succ k ih => simpa [hangSpin, List.replicate_succ, countRemoves] using ih

lemma sigtermRun_countRemoves (e : ℚ) (n : Nat) :
    countRemoves (sigtermRun e n) = 0 := by
  induction n generalizing e with
  | zero => rfl
  | succ k ih => simp [sigtermRun, countRemoves, ih]

lemma normalRun_countRemoves (d e : ℚ) (ds : List ℚ) :
    countRemoves (normalRun d e ds).1 = 0 := by
  induction ds generalizing e with
  | nil => unfold normalRun; split <;> rfl
  | cons s rest ih =>
    unfold normalRun
    split
    · rfl
    · simp [countRemoves, ih]

lemma crashRun_countRemoves (d e : ℚ) (ds : List (ℚ × ℚ)) :
    countRemoves (crashRun d e ds).1 = 0 := by
  induction ds generalizing e with
  | nil => unfold crashRun; split <;> rfl
  | cons p rest ih =>
    obtain ⟨s, c⟩ := p
    unfold crashRun
    split
    · rfl
    · by_cases hc : c < mkRat 1 5 <;> simp [hc, countRemoves, ih]

lemma hangRun_countRemoves (n : Nat) : countRemoves (hangRun n) = 0 := by
  simp [hangRun, hangBeatLoop, countRemoves_append, countRemoves,
    hangSpin_countRemoves]

lemma longRequestRun_countRemoves (d : ℚ) :
    countRemoves (longRequestRun d) = 0 := rfl

lemma scenarioTrace_countRemoves (scenario : String) (d : ℚ)
    (draws : List (ℚ × ℚ)) (fuel : Nat) :
    countRemoves (scenarioTrace scenario d draws fuel) = 0 := by
  unfold scenarioTrace
  split
  · simp [countRemoves, normalRun_countRemoves]
  · split
    · simp [countRemoves, crashRun_countRemoves]
    · split
      · simp [countRemoves, hangRun, hangBeatLoop, countRemoves_append,
          hangSpin_countRemoves]
      · split
        · simp [countRemoves, sigtermRun_countRemoves]
        · split
          · simp [longRequestRun_countRemoves]
          · rfl

lemma startupEvents_countRemoves (p fe : Bool) :
    countRemoves (startupEvents p fe) ≤ 1 := by
  cases p <;> cases fe <;> simp [startupEvents, countRemoves]

lemma startupEvents_countBeats (p fe : Bool) :
    countBeats (startupEvents p fe) = 0 := by
  cases p <;> cases fe <;> simp [startupEvents, countBeats]

/-! ## Facts about the crash_periodic loop -/

lemma crashRun_checksFollowSleep (d : ℚ) (ds : List (ℚ × ℚ)) (e : ℚ) :
    checksFollowSleep false (crashRun d e ds).1 = true := by
  induction ds generalizing e with
  | nil =>
    unfold crashRun
    split <;> rfl
  | cons p rest ih =>
    obtain ⟨s, c⟩ := p
    unfold crashRun
    split
    · rfl
    · by_cases hc : c < mkRat 1 5 <;>
        simp [hc, checksFollowSleep, ih]

lemma crashRun_checks_eq_beats (d : ℚ) (ds : List (ℚ × ℚ)) (e : ℚ) :
    countChecks (crashRun d e ds).1 = countBeats (crashRun d e ds).1 := by
  induction ds generalizing e with
  | nil =>
    unfold crashRun
    split <;> rfl
  | cons p rest ih =>
    obtain ⟨s, c⟩ := p
    unfold crashRun
    split
    · rfl
    · by_cases hc : c < mkRat 1 5 <;>
        simp [hc, countChecks, countBeats, ih]

lemma crashRun_exit1_cycle (d : ℚ) (ds : List (ℚ × ℚ)) (e : ℚ)
    (h : (crashRun d e ds).2 = some 1) :
    1 ≤ countBeats (crashRun d e ds).1 ∧
    1 ≤ countChecks (crashRun d e ds).1 := by
  cases ds with
  | nil =>
    unfold crashRun at h
    split at h
    · exact absurd h (by simp)
    · exact absurd h (by simp)
  | cons p rest =>
    obtain ⟨s, c⟩ := p
    by_cases hde : d ≤ e
    · unfold crashRun at h
      rw [if_pos hde] at h
      exact absurd h (by simp)
    · unfold crashRun
      rw [if_neg hde]
      simp only [countBeats, countChecks]
      constructor <;> omega

lemma crashRun_exit0_elapsed (d : ℚ) (ds : List (ℚ × ℚ)) (e : ℚ)
    (h : (crashRun d e ds).2 = some 0) :
    d ≤ e + sleepSum (crashRun d e ds).1 := by
  induction ds generalizing e with
  | nil =>
    by_cases hde : d ≤ e
    · unfold crashRun
      rw [if_pos hde]
      simp [sleepSum]
      linarith
    · unfold crashRun at h
      rw [if_neg hde] at h
      exact absurd h (by simp)
  | cons p rest ih =>
    obtain ⟨s, c⟩ := p
    by_cases hde : d ≤ e
    · unfold crashRun
      rw [if_pos hde]
      simp [sleepSum]
      linarith
    · unfold crashRun at h ⊢
      rw [if_neg hde] at h ⊢
      by_cases hc : c < mkRat 1 5
      · simp [hc] at h
      · simp only [hc, if_false] at h ⊢
        have hrec := ih (e + s) h
        simp only [sleepSum]
        linarith

/-! ## List helpers for the argument model -/

lemma getD_dropLast {α : Type} :
    ∀ (l : List α) (i : Nat) (d : α), i + 1 < l.length →
      l.dropLast.getD i d = l.getD i d
  | [], i, d, h => by simp at h
  | [a], i, d, h => by simp at h
  | a :: b :: t, 0, d, h => by simp [List.dropLast]
  | a :: b :: t, i + 1, d, h => by
    have hlt : i + 1 < (b :: t).length := by
      simpa using Nat.lt_of_succ_lt_succ h
    have := getD_dropLast (b :: t) i d hlt
    simpa [List.dropLast, List.getD_cons_succ] using this

/-! ## The misspelled global in the baseline writer -/

lemma clientLoopIter_nameError (w : String → Bool) (hb : String) (fs : FS)
    (i : Nat) (f : List Nat) :
    clientLoopIter w hb fs i f = Except.error PyErr.nameError := by
  have hlook : lookupName (clientGlobalEnv hb) "HEARTBEBEAT_FILE"
      = Except.error PyErr.nameError := by
    simp [lookupName, clientGlobalEnv]
  simp [clientLoopIter, clientTryBlock, hlook]

/-! ## Projection lemmas for the resolved configuration -/

lemma resolveConfig_popped (argv : List String) :
    (resolveConfig argv).popped = popsPath argv := rfl

lemma resolveConfig_heartbeatFile (argv : List String) :
    (resolveConfig argv).heartbeatFile =
      if popsPath argv then argv.getLastD "" else "heartbeat.txt" := rfl

lemma resolveConfig_scenario (argv : List String) :
    (resolveConfig argv).scenario =
      if 1 < (argvAfterPop argv).length then (argvAfterPop argv).getD 1 ""
      else "normal" := rfl

lemma resolveConfig_duration (argv : List String) :
    (resolveConfig argv).duration =
      if 2 < (argvAfterPop argv).length ∧
          pyIsdigit ((argvAfterPop argv).getD 2 "")
      then pyInt ((argvAfterPop argv).getD 2 "") else 30 := rfl

/-! ## Claims -/

/-- Claim C1 (code bug witness): every iteration of the baseline writer
loop in `client.py` raises `NameError` — the `open` call references the
misspelled global `HEARTBEBEAT_FILE` — and `except IOError` does not catch
it, so the writer terminates on its first iteration instead of logging
write failures and beating forever. -/
theorem client_loop_first_iteration_nameError (w : String → Bool)
    (hb : String) (fs : FS) (i : Nat) (f : List Nat) :
    clientLoopIter w hb fs i f = Except.error PyErr.nameError :=
  clientLoopIter_nameError w hb fs i f

/-- Claim C2: when the resolved scenario name is none of the five recognized
ones, the harness run performs no heartbeat write and its last event is
exit with code 1. -/
theorem unknown_scenario_exit1_no_beats (argv : List String) (fe : Bool)
    (draws : List (ℚ × ℚ)) (fuel : Nat)
    (h : (resolveConfig argv).scenario ∉
      ["normal", "crash_periodic", "hang", "sigterm_test", "long_request"]) :
    countBeats (mainTrace argv fe draws fuel) = 0 ∧
    (mainTrace argv fe draws fuel).getLast? = some (Event.exited 1) := by
  simp only [List.mem_cons, List.not_mem_nil, or_false, not_or] at h
  obtain ⟨h1, h2, h3, h4, h5⟩ := h
  have hsc : scenarioTrace (resolveConfig argv).scenario
      ((resolveConfig argv).duration : ℚ) draws fuel
      = [Event.loge "Unknown scenario", Event.exited 1] := by
    unfold scenarioTrace
    rw [if_neg h1, if_neg h2, if_neg h3, if_neg h4, if_neg h5]
  constructor
  · show countBeats (startupEvents (resolveConfig argv).popped fe ++
      scenarioTrace (resolveConfig argv).scenario
        ((resolveConfig argv).duration : ℚ) draws fuel) = 0
    rw [countBeats_append, startupEvents_countBeats, hsc]
    rfl
  · show (startupEvents (resolveConfig argv).popped fe ++
      scenarioTrace (resolveConfig argv).scenario
        ((resolveConfig argv).duration : ℚ) draws fuel).getLast?
      = some (Event.exited 1)
    rw [hsc, List.getLast?_append_of_ne_nil _ (by simp)]
    rfl

/-- Witness for C2 at a concrete invocation with an unknown scenario. -/
theorem unknown_scenario_exit1_no_beats_witness :
    countBeats (mainTrace ["test_client.py", "bogus", "5"] false [] 0) = 0 ∧
    (mainTrace ["test_client.py", "bogus", "5"] false [] 0).getLast?
      = some (Event.exited 1) :=
  unknown_scenario_exit1_no_beats ["test_client.py", "bogus", "5"] false [] 0
    (by decide)

/-- Counterexample to claim C3: invoking the harness with the single
argument `hang` does not run the hang scenario — the argument is consumed
as the heartbeat path and the scenario resolves to normal. -/
theorem single_hang_arg_runs_normal_instead :
    (resolveConfig ["test_client.py", "hang"]).scenario = "normal" ∧
    (resolveConfig ["test_client.py", "hang"]).scenario ≠ "hang" ∧
    (resolveConfig ["test_client.py", "hang"]).heartbeatFile = "hang" := by
  decide

/-- Claim C3 as amended: the scenario is the first positional argument of
what remains after the trailing-path pop — with no arguments it defaults to
normal; with a numeric last argument the first positional is the scenario;
with a non-numeric last argument that argument is consumed as the path
first, so the scenario is the first positional only when at least three
arguments remain, and defaults to normal otherwise. -/
theorem scenario_after_trailing_pop (argv : List String) :
    (argv.length ≤ 1 → (resolveConfig argv).scenario = "normal") ∧
    (2 ≤ argv.length → pyIsdigit (argv.getLastD "") = true →
      (resolveConfig argv).scenario = argv.getD 1 "") ∧
    (2 ≤ argv.length → pyIsdigit (argv.getLastD "") = false →
      (resolveConfig argv).scenario =
        if 2 < argv.length then argv.getD 1 "" else "normal") := by
  refine ⟨?_, ?_, ?_⟩
  · intro hlen
    have hpop : popsPath argv = false := by
      simp [popsPath]
      omega
    have hpop1 : ¬popsPath argv = true := by simp [hpop]
    rw [resolveConfig_scenario, argvAfterPop, if_neg hpop1,
      if_neg (show ¬1 < argv.length by omega)]
  · intro hlen hdig
    rw [List.getLastD_eq_getLast?] at hdig
    have hpop : popsPath argv = false := by simp [popsPath, hdig]
    have hpop1 : ¬popsPath argv = true := by simp [hpop]
    rw [resolveConfig_scenario, argvAfterPop, if_neg hpop1,
      if_pos (show 1 < argv.length by omega)]
  · intro hlen hdig
    rw [List.getLastD_eq_getLast?] at hdig
    have h1 : 1 < argv.length := by omega
    have hpop : popsPath argv = true := by simp [popsPath, hdig, h1]
    have hdrop : argv.dropLast.length = argv.length - 1 :=
      List.length_dropLast argv
    rw [resolveConfig_scenario, argvAfterPop, if_pos hpop]
    by_cases h2 : 2 < argv.length
    · rw [if_pos (show 1 < argv.dropLast.length by omega), if_pos h2]
      exact getD_dropLast argv 1 "" (by omega)
    · rw [if_neg (show ¬1 < argv.dropLast.length by omega), if_neg h2]

/-- Witness for the amended C3 at a concrete invocation. -/
theorem scenario_after_trailing_pop_witness :
    (resolveConfig ["test_client.py", "hang", "7"]).scenario = "hang" := by
  have h := (scenario_after_trailing_pop ["test_client.py", "hang", "7"]).2.1
    (by decide) (by decide)
  simpa using h

/-- Counterexample to claim C4: a run started while a heartbeat file
already exists deletes that file once during startup cleanup, so the
harness does remove the heartbeat file. -/
theorem startup_cleanup_deletes_heartbeat_file :
    countRemoves (mainTrace ["test_client.py"] true [] 0) = 1 := by
  decide

/-- Claim C4 as amended: the scenario phase never deletes the heartbeat
file and no deletion ever happens after the first beat — the only deletion
is the single startup cleanup of a pre-existing file; the baseline writer
performs no deletion at all. -/
theorem no_delete_after_first_beat (argv : List String) (fe : Bool)
    (draws : List (ℚ × ℚ)) (fuel : Nat) (w : String → Bool) (hb : String)
    (fs : FS) (i : Nat) (f : List Nat) :
    countRemoves (scenarioTrace (resolveConfig argv).scenario
      ((resolveConfig argv).duration : ℚ) draws fuel) = 0 ∧
    countRemoves (mainTrace argv fe draws fuel) ≤ 1 ∧
    noRemoveAfterBeat false (mainTrace argv fe draws fuel) = true ∧
    (∀ fs1 evs, clientLoopIter w hb fs i f = Except.ok (fs1, evs) →
      countRemoves evs = 0) := by
  have hsc : countRemoves (scenarioTrace (resolveConfig argv).scenario
      ((resolveConfig argv).duration : ℚ) draws fuel) = 0 :=
    scenarioTrace_countRemoves _ _ _ _
  refine ⟨hsc, ?_, ?_, ?_⟩
  · show countRemoves (startupEvents (resolveConfig argv).popped fe ++ _) ≤ 1
    rw [countRemoves_append, hsc]
    have := startupEvents_countRemoves (resolveConfig argv).popped fe
    omega
  · show noRemoveAfterBeat false
      (startupEvents (resolveConfig argv).popped fe ++ _) = true
    have htail := noRemoveAfterBeat_of_no_removes _ false hsc
    cases hpop : (resolveConfig argv).popped <;> cases fe <;>
      simpa [startupEvents, noRemoveAfterBeat] using htail
  · intro fs1 evs hok
    rw [clientLoopIter_nameError] at hok
    exact absurd hok (by simp)

/-- Witness for the amended C4 at a concrete run that starts with an
existing heartbeat file. -/
theorem no_delete_after_first_beat_witness :
    noRemoveAfterBeat false (mainTrace ["test_client.py"] true [] 0) = true :=
  (no_delete_after_first_beat ["test_client.py"] true [] 0 (fun _ => true)
    "heartbeat.txt" (FS.mk none) 0 []).2.2.1

/-- Claim C5: in crash_periodic the crash check happens exactly once per
cycle and only immediately after the sleep of that cycle; an exit with code 1
can only happen after at least one completed beat-sleep-check cycle, and
an exit with code 0 implies the slept time reached the duration. -/
theorem crash_periodic_check_once_per_cycle (d : ℚ)
    (draws : List (ℚ × ℚ)) :
    checksFollowSleep false (crashRun d 0 draws).1 = true ∧
    countChecks (crashRun d 0 draws).1 = countBeats (crashRun d 0 draws).1 ∧
    ((crashRun d 0 draws).2 = some 1 →
      1 ≤ countBeats (crashRun d 0 draws).1 ∧
      1 ≤ countChecks (crashRun d 0 draws).1) ∧
    ((crashRun d 0 draws).2 = some 0 →
      d ≤ sleepSum (crashRun d 0 draws).1) := by
  refine ⟨crashRun_checksFollowSleep d draws 0,
    crashRun_checks_eq_beats d draws 0,
    fun h => crashRun_exit1_cycle d draws 0 h,
    fun h => ?_⟩
  have := crashRun_exit0_elapsed d draws 0 h
  linarith

/-- Witness for C5: a run that crashes in its first cycle, and a
zero-duration run that exits 0. -/
theorem crash_periodic_check_once_per_cycle_witness :
    (1 ≤ countBeats (crashRun 10 0 [(5, 0)]).1 ∧
      1 ≤ countChecks (crashRun 10 0 [(5, 0)]).1) ∧
    (0 : ℚ) ≤ sleepSum (crashRun 0 0 []).1 :=
  ⟨(crash_periodic_check_once_per_cycle 10 [(5, 0)]).2.2.1 (by decide),
   (crash_periodic_check_once_per_cycle 0 []).2.2.2 (by decide)⟩

/-- Claim C6: the hang scenario beats exactly twice, at 0 and 5 seconds —
both within the first 10 seconds, 5 seconds apart — and no matter how long
the tail loop is observed, no further beat and no exit ever occur. -/
theorem hang_two_beats_then_silence (fuel : Nat) :
    beatTimes (hangRun fuel) = [0, 5] ∧
    countBeats (hangRun fuel) = 2 ∧
    (∀ t ∈ beatTimes (hangRun fuel), t ≤ 10) ∧
    countExits (hangRun fuel) = 0 := by
  have hb : beatTimes (hangRun fuel) = [0, 5] := by
    simp [hangRun, hangBeatLoop, beatTimes_append, beatTimes,
      hangSpin_beatTimes]
  refine ⟨hb, ?_, ?_, ?_⟩
  · simp [hangRun, hangBeatLoop, countBeats_append, countBeats,
      hangSpin_countBeats]
  · rw [hb]
    intro t ht
    simp at ht
    rcases ht with rfl | rfl <;> norm_num
  · simp [hangRun, hangBeatLoop, countExits_append, countExits,
      hangSpin_countExits]

/-- Claim C7: the long_request scenario beats exactly twice, at time 0 and
at time `d` (no write in between), and its one exit event is code 0 at the
very end of the trace, after the second beat. -/
theorem long_request_two_beats_exit0 (d : ℚ) :
    beatTimes (longRequestRun d) = [0, d] ∧
    countBeats (longRequestRun d) = 2 ∧
    countExits (longRequestRun d) = 1 ∧
    (longRequestRun d).getLast? = some (Event.exited 0) :=
  ⟨rfl, rfl, rfl, rfl⟩

/-- Claim C8: the SIGTERM handler is installed unconditionally (so in every
scenario); delivering SIGTERM after any number of events replaces the rest
of the run with exactly the handler events, which log, write no beat,
remove nothing, and end in exit code 0. -/
theorem sigterm_logs_and_exits_zero_no_beat (argv : List String)
    (tr : List Event) (k : Nat) (s : Nat) :
    mainSignalTable argv SIGTERM = some signal_handler ∧
    (deliverSignal argv tr k SIGTERM).drop (tr.take k).length
      = signal_handler SIGTERM ∧
    countBeats (signal_handler s) = 0 ∧
    countRemoves (signal_handler s) = 0 ∧
    (signal_handler s).getLast? = some (Event.exited 0) ∧
    ∃ m, Event.logi m ∈ signal_handler s := by
  refine ⟨rfl, ?_, rfl, rfl, rfl,
    ⟨"Received signal, exiting gracefully", by simp [signal_handler]⟩⟩
  show (tr.take k ++ signal_handler SIGTERM).drop (tr.take k).length
    = signal_handler SIGTERM
  exact List.drop_left _ _

/-- Claim C9: a heartbeat write replaces the whole file content with
exactly the serialized timestamp, regardless of what was there before, and
parsing that content back yields exactly the timestamp written. -/
theorem heartbeat_write_full_overwrite_roundtrip (fs : FS) (i : Nat)
    (f : List Nat) (hf : ∀ d ∈ f, d < 10) (hne : f ≠ []) :
    (write_heartbeat fs i f).content = some (floatStr i f) ∧
    parseHeartbeat (floatStr i f) = some (i, f) :=
  ⟨rfl, parseHeartbeat_floatStr hf hne⟩

/-- Witness for C9: overwriting a file holding garbage with the timestamp
17.50 round-trips. -/
theorem heartbeat_write_full_overwrite_roundtrip_witness :
    (write_heartbeat (FS.mk (some ['x'])) 17 [5, 0]).content
      = some (floatStr 17 [5, 0]) ∧
    parseHeartbeat (floatStr 17 [5, 0]) = some (17, [5, 0]) :=
  heartbeat_write_full_overwrite_roundtrip (FS.mk (some ['x'])) 17 [5, 0]
    (by decide) (by decide)

/-- Counterexample to claim C10: with the trailing all-digit argument
`123` intended as a path, the default path is indeed kept, but `123` is
not interpreted as the duration — the duration stays 30. -/
theorem trailing_digit_arg_ignored_not_duration :
    (resolveConfig ["test_client.py", "normal", "30", "123"]).heartbeatFile
      = "heartbeat.txt" ∧
    (resolveConfig ["test_client.py", "normal", "30", "123"]).duration = 30 ∧
    (resolveConfig ["test_client.py", "normal", "30", "123"]).duration ≠ 123 := by
  decide

/-- Claim C10 as amended: the trailing argument is consumed as the
heartbeat path exactly when there is one and it is not a non-empty
all-digit string; an all-digit trailing argument never becomes the path
(the default is kept) and is instead parsed positionally — as the scenario
when it is the first positional argument, as the duration when it is the
second, and it is ignored in later positions. The last conjunct is the
general statement behind the positional clauses: whenever the last
argument is a digit string, the whole resolved configuration is a function
of positions 1 and 2 alone — for any argument count, so a trailing digit
string in position 3 or later has no effect at all, in position 2 it is
the duration source, and in position 1 the scenario. -/
theorem trailing_digit_arg_policy (argv : List String) :
    ((resolveConfig argv).popped = true ↔
      1 < argv.length ∧ pyIsdigit (argv.getLastD "") = false) ∧
    ((resolveConfig argv).popped = true →
      (resolveConfig argv).heartbeatFile = argv.getLastD "") ∧
    ((resolveConfig argv).popped = false →
      (resolveConfig argv).heartbeatFile = "heartbeat.txt") ∧
    (pyIsdigit (argv.getLastD "") = true →
      (argv.length = 2 → (resolveConfig argv).scenario = argv.getLastD "") ∧
      (argv.length = 3 → (resolveConfig argv).duration
        = pyInt (argv.getLastD ""))) ∧
    (pyIsdigit (argv.getLastD "") = true → 1 < argv.length →
      resolveConfig argv =
        ⟨"heartbeat.txt", false, argv.getD 1 "",
         if 2 < argv.length ∧ pyIsdigit (argv.getD 2 "") = true
         then pyInt (argv.getD 2 "") else 30⟩) := by
  refine ⟨?_, ?_, ?_, ?_, ?_⟩
  · rw [resolveConfig_popped]
    simp [popsPath]
  · intro hpop
    rw [resolveConfig_popped] at hpop
    rw [resolveConfig_heartbeatFile, if_pos hpop]
  · intro hpop
    rw [resolveConfig_popped] at hpop
    have hpop1 : ¬popsPath argv = true := by simp [hpop]
    rw [resolveConfig_heartbeatFile, if_neg hpop1]
  · intro hdig
    constructor
    · intro hlen
      obtain ⟨a, b, rfl⟩ := List.length_eq_two.mp hlen
      have hb : pyIsdigit b = true := by simpa using hdig
      have hpop1 : ¬popsPath [a, b] = true := by simp [popsPath, hb]
      rw [resolveConfig_scenario, argvAfterPop, if_neg hpop1]
      simp
    · intro hlen
      obtain ⟨a, b, c, rfl⟩ := List.length_eq_three.mp hlen
      have hc : pyIsdigit c = true := by simpa using hdig
      have hpop1 : ¬popsPath [a, b, c] = true := by simp [popsPath, hc]
      rw [resolveConfig_duration, argvAfterPop, if_neg hpop1]
      rw [if_pos (show 2 < ([a, b, c] : List String).length ∧
        pyIsdigit (([a, b, c] : List String).getD 2 "") = true from
        ⟨by simp, by simpa using hc⟩)]
      simp
  · intro hdig h1
    have hdig1 : pyIsdigit (argv.getLast?.getD "") = true := by
      rw [← List.getLastD_eq_getLast?]
      exact hdig
    have hpop : popsPath argv = false := by simp [popsPath, hdig1]
    have hpop1 : ¬popsPath argv = true := by simp [hpop]
    have hav : argvAfterPop argv = argv := by
      rw [argvAfterPop, if_neg hpop1]
    unfold resolveConfig
    rw [hav, if_neg hpop1, hpop, if_pos h1]

/-- Witness for the amended C10: `normal 123` parses 123 as the duration
with the default path, and with `normal 30 123` the trailing digit string
is ignored entirely — the general conjunct instantiated at a four-argument
invocation evaluates to the same configuration as without it. -/
theorem trailing_digit_arg_policy_witness :
    (resolveConfig ["test_client.py", "normal", "123"]).duration
      = pyInt (["test_client.py", "normal", "123"].getLastD "") ∧
    resolveConfig ["test_client.py", "normal", "30", "123"]
      = ⟨"heartbeat.txt", false, "normal", 30⟩ := by
  constructor
  · have h := ((trailing_digit_arg_policy
      ["test_client.py", "normal", "123"]).2.2.2.1 (by decide)).2 (by decide)
    simpa using h
  · have h := (trailing_digit_arg_policy
      ["test_client.py", "normal", "30", "123"]).2.2.2.2 (by decide) (by decide)
    exact h.trans (by decide)

end Supervisor
